import Mathlib

/-!
Shallow embedding of the transaction retry-with-fee-escalation engine of the
primev/go-scripts repository (cmd/stake/main.go and its identical copy in
cmd/test-duties/main.go), together with the "nonce too low" result handling of
the migration scripts (cmd/holesky-migrate/main.go, cmd/migrate/main.go).

Go big.Int values are modelled as Lean Int.  Go's big.Int.Div implements
Euclidean division, which for a positive divisor coincides with Lean's
Int division (the instance used by the / sign on Int).  Go errors are
modelled as String messages; strings.Contains is modelled by strContains
below.  The bind.TransactOpts pointer that BoostTipForTransactOpts mutates
in place is modelled by returning the post-call options record next to the
error result.
-/

/-- Model of the fields of geth's bind.TransactOpts that the scripts read or
write: sender address, nonce, attached value, gas limit and the two EIP-1559
fee fields.  Addresses are abstracted to Nat. -/
structure TransactOpts where
  From : Nat
  Nonce : Int
  Value : Int
  GasLimit : Nat
  GasTipCap : Int
  GasFeeCap : Int
deriving DecidableEq

/-- Model of the fields of geth's types.Receipt that the scripts use. -/
structure Receipt where
  Status : Nat
  BlockNumber : Int
deriving DecidableEq

/-- Go's strings.HasPrefix on character lists: does the second list start
with the first? -/
def charsLead : List Char → List Char → Bool
  | [], _ => true
  | _ :: _, [] => false
  | p :: ps, c :: cs => p == c && charsLead ps cs

/-- Substring occurrence on character lists: does the first list occur as a
contiguous run inside the second? -/
def charsHasSub (pat : List Char) : List Char → Bool
  | [] => charsLead pat []
  | c :: cs => charsLead pat (c :: cs) || charsHasSub pat cs

/-- Go's strings.Contains s pat: pat occurs as a substring of s. -/
def strContains (s pat : String) : Bool :=
  charsHasSub pat.data s.data

/-- The 10-percent-plus-one-unit fee boost expression from
BoostTipForTransactOpts (cmd/stake/main.go): x + x/10 + 1, with the
floor division that big.Int.Div performs for the positive divisor 10. -/
def boostBy10 (x : Int) : Int :=
  x + x / 10 + 1

/-- BoostTipForTransactOpts (cmd/stake/main.go lines 205-264; identical in
cmd/test-duties/main.go).  The sugg argument is the outcome of the
SuggestGasTipCapAndPrice RPC call: an error message, or the pair
(gas tip, gas price).  Returns the Go error result paired with the state of
the opts record after the call (the Go function mutates opts through a
pointer; every mutation happens after all checks have passed). -/
def boostTipForTransactOpts (opts : TransactOpts)
    (sugg : Except String (Int × Int)) : Except String Unit × TransactOpts :=
  match sugg with
  | .error e =>
      (.error ("failed to suggest gas tip cap and price: " ++ e), opts)
  | .ok (newGasTip, newFeeCap) =>
      let newBaseFee := newFeeCap - newGasTip
      if newBaseFee < 0 then
        (.error ("new base fee cannot be negative: " ++ toString newBaseFee), opts)
      else
        let prevBaseFee := opts.GasFeeCap - opts.GasTipCap
        if prevBaseFee < 0 then
          (.error ("base fee cannot be negative: " ++ toString prevBaseFee), opts)
        else
          let maxBaseFee := if newBaseFee > prevBaseFee then newBaseFee else prevBaseFee
          let maxGasTip := if newGasTip > opts.GasTipCap then newGasTip else opts.GasTipCap
          let boostedTip := maxGasTip + maxGasTip / 10 + 1
          let boostedBaseFee := maxBaseFee + maxBaseFee / 10 + 1
          (.ok (), { opts with GasTipCap := boostedTip,
                               GasFeeCap := boostedBaseFee + boostedTip })

/-- The soft-failure test of WaitMinedWithRetry: the submission error message
contains "replacement transaction underpriced" or "already known". -/
def isSoftErr (e : String) : Bool :=
  strContains e "replacement transaction underpriced" || strContains e "already known"

/-- Outcome of one inclusion wait (the bind.WaitMined goroutine raced against
the 60-second timeout context): a receipt, a confirmation error, or the
timeout elapsing. -/
inductive WaitOutcome where
  | mined : Receipt → WaitOutcome
  | failed : String → WaitOutcome
  | timeout : WaitOutcome
deriving DecidableEq

/-- Environment of one WaitMinedWithRetry call, indexed by attempt number:
the fee-suggestion RPC outcome used by the boost of that attempt, the
submission callback outcome, and the inclusion-wait outcome. -/
structure Env where
  suggest : Nat → Except String (Int × Int)
  submit : Nat → TransactOpts → Except String Unit
  wait : Nat → WaitOutcome

/-- Result of WaitMinedWithRetry: a receipt or a failure message. -/
inductive RunResult where
  | receipt : Receipt → RunResult
  | failure : String → RunResult
deriving DecidableEq

/-- Observable events of a WaitMinedWithRetry run: a call to
BoostTipForTransactOpts, an invocation of the submission callback with the
fee parameters it was handed, and the start of an inclusion wait (the
60-second clock). -/
inductive Event where
  | boostCall : Nat → Event
  | submitCall : Nat → TransactOpts → Event
  | waitStart : Nat → Event
deriving DecidableEq

/-- The maxRetries constant of WaitMinedWithRetry. -/
def maxRetries : Nat := 10

/-- Error message wrapping a boost failure, from
fmt.Errorf("failed to boost gas tip for attempt %d: %w", attempt, err). -/
def boostFailMsg (attempt : Nat) (e : String) : String :=
  "failed to boost gas tip for attempt " ++ toString attempt ++ ": " ++ e

/-- Error message wrapping a fatal submission failure, from
fmt.Errorf("tx submission failed on attempt %d: %w", attempt, err). -/
def submitFailMsg (attempt : Nat) (e : String) : String :=
  "tx submission failed on attempt " ++ toString attempt ++ ": " ++ e

/-- The exhaustion error message of WaitMinedWithRetry, from
fmt.Errorf("tx not included after %d attempts", maxRetries). -/
def notIncludedMsg : String :=
  "tx not included after " ++ toString maxRetries ++ " attempts"

/-- The fall-through error message after the retry loop of
WaitMinedWithRetry. -/
def loopEndMsg : String :=
  "unexpected error: control flow should not reach end of WaitMinedWithRetry"

/-- Body of one loop iteration of WaitMinedWithRetry after the boost step:
submit, classify a submission error as soft (continue) or fatal (return),
otherwise start the inclusion wait and act on its outcome; next is the rest
of the loop, entered with the current fee parameters. -/
def attemptCore (env : Env) (attempt : Nat) (opts : TransactOpts)
    (next : TransactOpts → RunResult × List Event) : RunResult × List Event :=
  match env.submit attempt opts with
  | .error e =>
      if isSoftErr e then
        let n := next opts
        (n.1, Event.submitCall attempt opts :: n.2)
      else
        (.failure (submitFailMsg attempt e), [Event.submitCall attempt opts])
  | .ok _ =>
      match env.wait attempt with
      | .mined rcpt =>
          (.receipt rcpt, [Event.submitCall attempt opts, Event.waitStart attempt])
      | .failed e =>
          (.failure e, [Event.submitCall attempt opts, Event.waitStart attempt])
      | .timeout =>
          if attempt = maxRetries - 1 then
            (.failure notIncludedMsg,
             [Event.submitCall attempt opts, Event.waitStart attempt])
          else
            let n := next opts
            (n.1, Event.submitCall attempt opts :: Event.waitStart attempt :: n.2)

/-- The retry loop of WaitMinedWithRetry (cmd/stake/main.go lines 273-330),
with remaining the number of loop iterations left (maxRetries - attempt).
Attempts after the first start by boosting the fee parameters, aborting on a
boost error; when remaining reaches zero the loop falls through to the
final unexpected-error return. -/
def runAttempts (env : Env) (opts : TransactOpts) :
    Nat → Nat → RunResult × List Event
  | _, 0 => (.failure loopEndMsg, [])
  | attempt, rem + 1 =>
      if attempt = 0 then
        attemptCore env attempt opts
          (fun o => runAttempts env o (attempt + 1) rem)
      else
        let br := boostTipForTransactOpts opts (env.suggest attempt)
        match br.1 with
        | .error e => (.failure (boostFailMsg attempt e), [Event.boostCall attempt])
        | .ok _ =>
            let out := attemptCore env attempt br.2
              (fun o => runAttempts env o (attempt + 1) rem)
            (out.1, Event.boostCall attempt :: out.2)

/-- WaitMinedWithRetry (cmd/stake/main.go; identical in
cmd/test-duties/main.go): run the loop from attempt 0 with maxRetries
iterations available, returning the result together with the trace of
observable events. -/
def waitMinedWithRetry (env : Env) (opts : TransactOpts) : RunResult × List Event :=
  runAttempts env opts 0 maxRetries

/-- The fee-parameter invariant of the spec: fee cap at least the tip, tip
nonnegative. -/
def FeeInv (o : TransactOpts) : Prop :=
  0 ≤ o.GasTipCap ∧ o.GasTipCap ≤ o.GasFeeCap

instance (o : TransactOpts) : Decidable (FeeInv o) := by
  unfold FeeInv; infer_instance

/-- Number of submission-callback invocations recorded in a trace. -/
def submitCount : List Event → Nat
  | [] => 0
  | Event.submitCall _ _ :: es => submitCount es + 1
  | _ :: es => submitCount es

/-- Number of inclusion waits started in a trace. -/
def waitCount : List Event → Nat
  | [] => 0
  | Event.waitStart _ :: es => waitCount es + 1
  | _ :: es => waitCount es

/-- Number of boost calls recorded in a trace for a given attempt number. -/
def boostCountAt (k : Nat) : List Event → Nat
  | [] => 0
  | Event.boostCall j :: es => (if j = k then 1 else 0) + boostCountAt k es
  | _ :: es => boostCountAt k es

/-- Total number of boost calls recorded in a trace. -/
def boostCount : List Event → Nat
  | [] => 0
  | Event.boostCall _ :: es => boostCount es + 1
  | _ :: es => boostCount es

/-- The WaitMinedWithRetry error handling shared by the migration scripts
(cmd/holesky-migrate/main.go lines 313-321, cmd/migrate/main.go lines
245-253): a "nonce too low" failure is replaced by a synthetic successful
receipt with status 1 and block number 0; the receipt result is used as is;
any other failure halts the batch process through log.Fatalf, modelled as
the error case. -/
def migrateHandleResult (res : RunResult) : Except String Receipt :=
  match res with
  | .receipt r => .ok r
  | .failure e =>
      if strContains e "nonce too low" then
        .ok { Status := 1, BlockNumber := 0 }
      else
        .error e

/-- A concrete options record used to instantiate theorems on explicit
inputs: sender 7, nonce 5, value 100, the 3000000 gas limit the scripts set,
tip 10 and fee cap 30. -/
def optsA : TransactOpts :=
  { From := 7, Nonce := 5, Value := 100, GasLimit := 3000000,
    GasTipCap := 10, GasFeeCap := 30 }

/-- A concrete receipt used to instantiate theorems on explicit inputs. -/
def rcptA : Receipt :=
  { Status := 1, BlockNumber := 42 }

/-- Environment in which every submission fails with an "already known"
error, fee suggestions succeed with tip 2 and gas price 3, and no inclusion
wait ever finishes. -/
def envC4 : Env :=
  { suggest := fun _ => .ok (2, 3),
    submit := fun _ _ => .error "already known",
    wait := fun _ => .timeout }

/-- Environment in which submission succeeds and the inclusion wait returns
a receipt at once. -/
def envH : Env :=
  { suggest := fun _ => .ok (3, 7),
    submit := fun _ _ => .ok (),
    wait := fun _ => .mined rcptA }

/-- Environment in which the first submission fails with an error that is
neither underpriced nor already-known. -/
def envF : Env :=
  { suggest := fun _ => .ok (3, 7),
    submit := fun _ _ => .error "insufficient funds",
    wait := fun _ => .timeout }

/-- Environment in which submission always succeeds and the inclusion wait
times out on every attempt except the last, which returns a receipt. -/
def envT : Env :=
  { suggest := fun _ => .ok (1, 2),
    submit := fun _ _ => .ok (),
    wait := fun k => if k = 9 then .mined rcptA else .timeout }

/-- Environment whose fee suggestion has fee cap 1 below tip 3, so the
derived base fee would be negative. -/
def envBad : Env :=
  { suggest := fun _ => .ok (3, 1),
    submit := fun _ _ => .ok (),
    wait := fun _ => .timeout }

lemma ite_gt_eq_max (a b : Int) : (if a > b then a else b) = max b a := by
  rcases le_or_lt a b with h | h
  · rw [if_neg (not_lt.mpr h)]
    exact (max_eq_left h).symm
  · rw [if_pos h]
    exact (max_eq_right h.le).symm

lemma boost_ok_eq (opts : TransactOpts) (t' c' : Int)
    (h1 : 0 ≤ c' - t') (h2 : 0 ≤ opts.GasFeeCap - opts.GasTipCap) :
    boostTipForTransactOpts opts (.ok (t', c')) =
      (.ok (), { opts with
        GasTipCap := boostBy10 (max opts.GasTipCap t'),
        GasFeeCap := boostBy10 (max (opts.GasFeeCap - opts.GasTipCap) (c' - t'))
          + boostBy10 (max opts.GasTipCap t') }) := by
  simp only [boostTipForTransactOpts]
  rw [if_neg (by omega), if_neg (by omega), ite_gt_eq_max, ite_gt_eq_max]
  simp only [boostBy10]

lemma boost_ok_inv (o : TransactOpts) (s : Except String (Int × Int))
    (h : (boostTipForTransactOpts o s).1 = Except.ok ())
    (hi : FeeInv o) : FeeInv (boostTipForTransactOpts o s).2 := by
  rcases hi with ⟨hi1, hi2⟩
  rcases s with e | ⟨t, c⟩
  · simp [boostTipForTransactOpts] at h
  · by_cases h1 : c - t < 0
    · simp [boostTipForTransactOpts, h1] at h
    · by_cases h2 : o.GasFeeCap - o.GasTipCap < 0
      · simp [boostTipForTransactOpts, h1, h2] at h
      · rw [boost_ok_eq o t c (by omega) (by omega)]
        have hm : o.GasTipCap ≤ max o.GasTipCap t := le_max_left _ _
        have hM : o.GasFeeCap - o.GasTipCap
            ≤ max (o.GasFeeCap - o.GasTipCap) (c - t) := le_max_left _ _
        unfold FeeInv
        simp only [boostBy10]
        constructor <;> omega

lemma boost_pair_inv (o o2 : TransactOpts) (s : Except String (Int × Int))
    (h : boostTipForTransactOpts o s = (Except.ok (), o2)) (hi : FeeInv o) :
    FeeInv o2 := by
  have h2 := boost_ok_inv o s (by rw [h]) hi
  rw [h] at h2
  exact h2

lemma boost_fields (o : TransactOpts) (s : Except String (Int × Int)) :
    ((boostTipForTransactOpts o s).2).From = o.From ∧
    ((boostTipForTransactOpts o s).2).Nonce = o.Nonce ∧
    ((boostTipForTransactOpts o s).2).Value = o.Value ∧
    ((boostTipForTransactOpts o s).2).GasLimit = o.GasLimit := by
  rcases s with e | ⟨t, c⟩
  · exact ⟨rfl, rfl, rfl, rfl⟩
  · simp only [boostTipForTransactOpts]
    split_ifs <;> exact ⟨rfl, rfl, rfl, rfl⟩

lemma attemptCore_submit_events (P : TransactOpts → Prop) (env : Env) (a : Nat)
    (opts : TransactOpts) (next : TransactOpts → RunResult × List Event)
    (hp : P opts)
    (hnext : ∀ k o', Event.submitCall k o' ∈ (next opts).2 → P o') :
    ∀ k o', Event.submitCall k o' ∈ (attemptCore env a opts next).2 → P o' := by
  intro k o' hmem
  rcases hsub : env.submit a opts with e | u
  · by_cases hsoft : isSoftErr e
    · simp only [attemptCore, hsub, hsoft, if_true] at hmem
      rcases List.mem_cons.mp hmem with h | h
      · obtain ⟨rfl, rfl⟩ : k = a ∧ o' = opts := by
          cases h; exact ⟨rfl, rfl⟩
        exact hp
      · exact hnext k o' h
    · simp only [attemptCore, hsub, hsoft, if_false] at hmem
      rcases List.mem_singleton.mp hmem with h
      obtain ⟨rfl, rfl⟩ : k = a ∧ o' = opts := by
        cases h; exact ⟨rfl, rfl⟩
      exact hp
  · rcases hw : env.wait a with rcpt | e
    · simp only [attemptCore, hsub, hw] at hmem
      rcases List.mem_cons.mp hmem with h | h
      · cases h; exact hp
      · rcases List.mem_singleton.mp h with h2
        cases h2
    · simp only [attemptCore, hsub, hw] at hmem
      rcases List.mem_cons.mp hmem with h | h
      · cases h; exact hp
      · rcases List.mem_singleton.mp h with h2
        cases h2
    · by_cases hlast : a = maxRetries - 1
      · simp only [attemptCore, hsub, hw, if_pos hlast] at hmem
        rcases List.mem_cons.mp hmem with h | h
        · cases h; exact hp
        · rcases List.mem_singleton.mp h with h2
          cases h2
      · simp only [attemptCore, hsub, hw, if_neg hlast] at hmem
        rcases List.mem_cons.mp hmem with h | h
        · cases h; exact hp
        · rcases List.mem_cons.mp h with h2 | h2
          · cases h2
          · exact hnext k o' h2

lemma runAttempts_submit_events (P : TransactOpts → Prop)
    (hP : ∀ o s, (boostTipForTransactOpts o s).1 = .ok () → P o →
      P (boostTipForTransactOpts o s).2) (env : Env) :
    ∀ (rem a : Nat) (opts : TransactOpts), P opts →
      ∀ k o', Event.submitCall k o' ∈ (runAttempts env opts a rem).2 → P o' := by
  intro rem
  induction rem with
  | zero =>
      intro a opts hp k o' hmem
      simp [runAttempts] at hmem
  | succ rem ih =>
      intro a opts hp k o' hmem
      rw [runAttempts] at hmem
      by_cases ha : a = 0
      · rw [if_pos ha] at hmem
        exact attemptCore_submit_events P env a opts _ hp
          (fun k o' h => ih (a + 1) opts hp k o' h) k o' hmem
      · rw [if_neg ha] at hmem
        rcases hbr : (boostTipForTransactOpts opts (env.suggest a)).1 with e | u
        · simp only [hbr] at hmem
          simp at hmem
        · simp only [hbr] at hmem
          rcases List.mem_cons.mp hmem with h | h
          · cases h
          · have hp2 : P (boostTipForTransactOpts opts (env.suggest a)).2 :=
              hP opts (env.suggest a) hbr hp
            exact attemptCore_submit_events P env a _ _ hp2
              (fun k o' hh => ih (a + 1) _ hp2 k o' hh) k o' h

lemma runAttempts_happy (env : Env) (r : Receipt)
    (hs : ∀ k o, env.submit k o = Except.ok ())
    (hw : ∀ k, k < maxRetries - 1 → env.wait k = WaitOutcome.timeout)
    (hw9 : env.wait (maxRetries - 1) = WaitOutcome.mined r)
    (hg : ∀ k, ∃ t c, env.suggest k = Except.ok (t, c) ∧ t ≤ c) :
    ∀ (rem a : Nat) (opts : TransactOpts),
      a + rem = maxRetries → 1 ≤ a → a ≤ maxRetries - 1 → FeeInv opts →
      (runAttempts env opts a rem).1 = RunResult.receipt r ∧
      submitCount (runAttempts env opts a rem).2 = rem ∧
      waitCount (runAttempts env opts a rem).2 = rem ∧
      ∀ k, boostCountAt k (runAttempts env opts a rem).2 =
        if a ≤ k ∧ k ≤ maxRetries - 1 then 1 else 0 := by
  intro rem
  induction rem with
  | zero =>
      intro a opts hsum ha1 hale hi
      have hmr : maxRetries = 10 := rfl
      omega
  | succ rem ih =>
      intro a opts hsum ha1 hale hi
      have hmr : maxRetries = 10 := rfl
      obtain ⟨t, c, hgc, htc⟩ := hg a
      obtain ⟨hi1, hi2⟩ := hi
      have hbq : boostTipForTransactOpts opts (env.suggest a)
          = (Except.ok (), { opts with
              GasTipCap := boostBy10 (max opts.GasTipCap t),
              GasFeeCap := boostBy10 (max (opts.GasFeeCap - opts.GasTipCap) (c - t))
                + boostBy10 (max opts.GasTipCap t) }) := by
        rw [hgc]
        exact boost_ok_eq opts t c (by omega) (by omega)
      have hinv2 : FeeInv { opts with
          GasTipCap := boostBy10 (max opts.GasTipCap t),
          GasFeeCap := boostBy10 (max (opts.GasFeeCap - opts.GasTipCap) (c - t))
            + boostBy10 (max opts.GasTipCap t) } :=
        boost_pair_inv opts _ _ hbq ⟨hi1, hi2⟩
      rw [runAttempts, if_neg (by omega : ¬ a = 0)]
      simp only [hbq, hs]
      by_cases hlast : a = maxRetries - 1
      · subst hlast
        have hrem0 : rem = 0 := by omega
        subst hrem0
        simp only [hw9, if_pos rfl, attemptCore, hs, submitCount, waitCount]
        refine ⟨trivial, trivial, trivial, ?_⟩
        intro k
        simp only [boostCountAt]
        split_ifs <;> omega
      · have hwa : env.wait a = WaitOutcome.timeout := hw a (by omega)
        simp only [attemptCore, hs, hwa, if_neg hlast]
        obtain ⟨ih1, ih2, ih3, ih4⟩ :=
          ih (a + 1) { opts with
              GasTipCap := boostBy10 (max opts.GasTipCap t),
              GasFeeCap := boostBy10 (max (opts.GasFeeCap - opts.GasTipCap) (c - t))
                + boostBy10 (max opts.GasTipCap t) }
            (by omega) (by omega) (by omega) hinv2
        refine ⟨ih1, ?_, ?_, ?_⟩
        · simp only [submitCount, ih2]
        · simp only [waitCount, ih3]
        · intro k
          simp only [boostCountAt, ih4 k]
          split_ifs <;> omega

/-- Claim C1: for previous fee parameters with fee cap at least the tip, the
tip nonnegative, and any suggested pair with fee cap at least the tip,
BoostTipForTransactOpts sets the new tip to b applied to the larger of the
two tips and the new fee cap to b of the larger of the two base fees plus b
of the larger tip, where b adds a tenth, rounded down, plus one unit. -/
theorem boost_formula (opts : TransactOpts) (t' c' : Int)
    (h0 : 0 ≤ opts.GasTipCap) (h1 : opts.GasTipCap ≤ opts.GasFeeCap)
    (h2 : t' ≤ c') :
    boostTipForTransactOpts opts (.ok (t', c')) =
      (.ok (), { opts with
        GasTipCap := boostBy10 (max opts.GasTipCap t'),
        GasFeeCap := boostBy10 (max (opts.GasFeeCap - opts.GasTipCap) (c' - t'))
          + boostBy10 (max opts.GasTipCap t') }) :=
  boost_ok_eq opts t' c' (by omega) (by omega)

theorem boost_formula_witness :
    boostTipForTransactOpts optsA (.ok (20, 25)) =
      (.ok (), { From := 7, Nonce := 5, Value := 100, GasLimit := 3000000,
                 GasTipCap := 23, GasFeeCap := 46 }) :=
  (boost_formula optsA 20 25 (by decide) (by decide) (by decide)).trans (by rfl)

/-- Claim C2: with a nonnegative previous tip and nonnegative suggested
fees, a successful boost raises the tip by at least a tenth of the previous
tip, rounded down, plus one (so strictly, even from tip zero), and raises
the fee cap strictly, so no resubmission carries identical or lower fee
parameters than its predecessor. -/
theorem boost_strict_increase (opts : TransactOpts) (t' c' : Int)
    (h0 : 0 ≤ opts.GasTipCap) (h1 : 0 ≤ t') (h2 : 0 ≤ c')
    (hok : (boostTipForTransactOpts opts (.ok (t', c'))).1 = .ok ()) :
    opts.GasTipCap + opts.GasTipCap / 10 + 1
        ≤ (boostTipForTransactOpts opts (.ok (t', c'))).2.GasTipCap ∧
    opts.GasTipCap < (boostTipForTransactOpts opts (.ok (t', c'))).2.GasTipCap ∧
    opts.GasFeeCap < (boostTipForTransactOpts opts (.ok (t', c'))).2.GasFeeCap := by
  by_cases hnb : c' - t' < 0
  · simp [boostTipForTransactOpts, hnb] at hok
  · by_cases hpb : opts.GasFeeCap - opts.GasTipCap < 0
    · simp [boostTipForTransactOpts, hnb, hpb] at hok
    · rw [boost_ok_eq opts t' c' (by omega) (by omega)]
      simp only [boostBy10]
      have hm1 : opts.GasTipCap ≤ max opts.GasTipCap t' := le_max_left _ _
      have hM1 : opts.GasFeeCap - opts.GasTipCap
          ≤ max (opts.GasFeeCap - opts.GasTipCap) (c' - t') := le_max_left _ _
      refine ⟨by omega, by omega, by omega⟩

theorem boost_strict_increase_witness :
    optsA.GasTipCap + optsA.GasTipCap / 10 + 1
        ≤ (boostTipForTransactOpts optsA (.ok (20, 25))).2.GasTipCap ∧
    optsA.GasTipCap < (boostTipForTransactOpts optsA (.ok (20, 25))).2.GasTipCap ∧
    optsA.GasFeeCap < (boostTipForTransactOpts optsA (.ok (20, 25))).2.GasFeeCap :=
  boost_strict_increase optsA 20 25 (by decide) (by decide) (by decide) rfl

/-- Claim C3: a successful boost preserves the invariant that the fee cap is
at least the tip and the tip is nonnegative, with a nonnegative base fee
component, and the invariant holds for the fee parameters handed to every
submission of a WaitMinedWithRetry run started under it. -/
theorem feeInv_preserved :
    (∀ (o : TransactOpts) (s : Except String (Int × Int)),
        (boostTipForTransactOpts o s).1 = Except.ok () → FeeInv o →
        FeeInv (boostTipForTransactOpts o s).2 ∧
        0 ≤ (boostTipForTransactOpts o s).2.GasFeeCap
          - (boostTipForTransactOpts o s).2.GasTipCap) ∧
    (∀ (env : Env) (opts : TransactOpts), FeeInv opts →
        ∀ k o', Event.submitCall k o' ∈ (waitMinedWithRetry env opts).2 →
          FeeInv o') := by
  constructor
  · intro o s h hi
    have h2 := boost_ok_inv o s h hi
    exact ⟨h2, by rcases h2 with ⟨a, b⟩; omega⟩
  · intro env opts hi k o' hmem
    exact runAttempts_submit_events FeeInv boost_ok_inv env maxRetries 0 opts hi
      k o' hmem

theorem feeInv_preserved_witness :
    (FeeInv (boostTipForTransactOpts optsA (.ok (20, 25))).2 ∧
      0 ≤ (boostTipForTransactOpts optsA (.ok (20, 25))).2.GasFeeCap
        - (boostTipForTransactOpts optsA (.ok (20, 25))).2.GasTipCap) ∧
    FeeInv optsA :=
  ⟨feeInv_preserved.1 optsA (.ok (20, 25)) rfl (by decide),
   feeInv_preserved.2 envH optsA (by decide) 0 optsA (by decide)⟩

/-- Claim C4 (divergence witness): when every submission fails with an
"already known" error, WaitMinedWithRetry does invoke the callback exactly
maxRetries times, boosts before each of the nine retries and never starts an
inclusion wait, but it returns the fall-through unexpected-error message of
the loop end instead of the distinct exhaustion error the spec announces. -/
theorem allSoftErrors_reach_loop_end :
    (waitMinedWithRetry envC4 optsA).1 = .failure loopEndMsg ∧
    (waitMinedWithRetry envC4 optsA).1 ≠ .failure notIncludedMsg ∧
    submitCount (waitMinedWithRetry envC4 optsA).2 = 10 ∧
    waitCount (waitMinedWithRetry envC4 optsA).2 = 0 ∧
    boostCount (waitMinedWithRetry envC4 optsA).2 = 9 := by
  decide

/-- Claim C5: when submissions always succeed, fee suggestions are
well-formed, and the inclusion wait times out on every attempt but the last,
which returns a receipt, WaitMinedWithRetry submits exactly maxRetries
times, uses the caller's fee parameters verbatim on attempt 0, boosts
exactly once before each of attempts 1 through 9, keeps the nonce of every
submission equal to the first, and returns the final attempt's receipt. -/
theorem retry_happy_path (env : Env) (opts : TransactOpts) (r : Receipt)
    (hi : FeeInv opts)
    (hs : ∀ k o, env.submit k o = Except.ok ())
    (hw : ∀ k, k < maxRetries - 1 → env.wait k = WaitOutcome.timeout)
    (hw9 : env.wait (maxRetries - 1) = WaitOutcome.mined r)
    (hg : ∀ k, ∃ t c, env.suggest k = Except.ok (t, c) ∧ t ≤ c) :
    (waitMinedWithRetry env opts).1 = RunResult.receipt r ∧
    submitCount (waitMinedWithRetry env opts).2 = maxRetries ∧
    waitCount (waitMinedWithRetry env opts).2 = maxRetries ∧
    (∀ k, boostCountAt k (waitMinedWithRetry env opts).2 =
        if 1 ≤ k ∧ k ≤ maxRetries - 1 then 1 else 0) ∧
    (waitMinedWithRetry env opts).2.head? = some (Event.submitCall 0 opts) ∧
    (∀ k o', Event.submitCall k o' ∈ (waitMinedWithRetry env opts).2 →
        o'.Nonce = opts.Nonce) := by
  have hw0 : env.wait 0 = WaitOutcome.timeout := hw 0 (by decide)
  obtain ⟨h1, h2, h3, h4⟩ :=
    runAttempts_happy env r hs hw hw9 hg 9 1 opts rfl (by decide) (by decide) hi
  have hrun : runAttempts env opts 0 maxRetries =
      ((runAttempts env opts 1 9).1,
        Event.submitCall 0 opts :: Event.waitStart 0 :: (runAttempts env opts 1 9).2) := by
    rw [show maxRetries = 9 + 1 from rfl, runAttempts, if_pos rfl]
    simp only [attemptCore, hs, hw0]
    rw [if_neg (by decide : ¬ (0 : Nat) = maxRetries - 1)]
  refine ⟨?_, ?_, ?_, ?_, ?_, ?_⟩
  · rw [waitMinedWithRetry, hrun]
    exact h1
  · rw [waitMinedWithRetry, hrun]
    simp only [submitCount, h2]
    rfl
  · rw [waitMinedWithRetry, hrun]
    simp only [waitCount, h3]
    rfl
  · intro k
    rw [waitMinedWithRetry, hrun]
    simp only [boostCountAt, h4 k]
  · rw [waitMinedWithRetry, hrun]
    rfl
  · intro k o' hmem
    rw [waitMinedWithRetry] at hmem
    refine runAttempts_submit_events (fun o => o.Nonce = opts.Nonce) ?_ env
      maxRetries 0 opts rfl k o' hmem
    intro o s _ hp
    rw [(boost_fields o s).2.1]
    exact hp

theorem retry_happy_path_witness :
    (waitMinedWithRetry envT optsA).1 = RunResult.receipt rcptA :=
  (retry_happy_path envT optsA rcptA (by decide) (fun k o => rfl)
    (by
      intro k hk
      have hmr : maxRetries = 10 := rfl
      show (if k = 9 then WaitOutcome.mined rcptA else WaitOutcome.timeout)
        = WaitOutcome.timeout
      rw [if_neg (by omega)])
    rfl (fun k => ⟨1, 2, rfl, by decide⟩)).1

/-- Claim C6: a first-attempt submission error containing neither
"replacement transaction underpriced" nor "already known" makes
WaitMinedWithRetry return that error wrapped at once, with the callback
invoked once and no boost and no inclusion wait, as the full event trace
shows. -/
theorem fatal_submit_aborts (env : Env) (opts : TransactOpts) (e : String)
    (hs : env.submit 0 opts = .error e)
    (hsoft : isSoftErr e = false) :
    waitMinedWithRetry env opts =
      (.failure (submitFailMsg 0 e), [Event.submitCall 0 opts]) := by
  show runAttempts env opts 0 maxRetries = _
  rw [show maxRetries = 9 + 1 from rfl]
  simp [runAttempts, attemptCore, hs, hsoft]

theorem fatal_submit_aborts_witness :
    waitMinedWithRetry envF optsA =
      (.failure (submitFailMsg 0 "insufficient funds"),
       [Event.submitCall 0 optsA]) :=
  fatal_submit_aborts envF optsA "insufficient funds" rfl (by decide)

/-- Claim C7: a suggested fee cap below the suggested tip, or previous fee
parameters with fee cap below tip, make BoostTipForTransactOpts fail with
the negative-base-fee errors before any mutation, and a boost error at any
retry makes the WaitMinedWithRetry loop abort with that error wrapped. -/
theorem negBaseFee_rejected :
    (∀ (o : TransactOpts) (t c : Int), c < t →
        (boostTipForTransactOpts o (.ok (t, c))).1 =
          .error ("new base fee cannot be negative: " ++ toString (c - t))) ∧
    (∀ (o : TransactOpts) (t c : Int), t ≤ c →
        o.GasFeeCap < o.GasTipCap →
        (boostTipForTransactOpts o (.ok (t, c))).1 =
          .error ("base fee cannot be negative: "
            ++ toString (o.GasFeeCap - o.GasTipCap))) ∧
    (∀ (env : Env) (o : TransactOpts) (a rem : Nat) (e : String), 1 ≤ a →
        (boostTipForTransactOpts o (env.suggest a)).1 = .error e →
        runAttempts env o a (rem + 1) =
          (.failure (boostFailMsg a e), [Event.boostCall a])) := by
  refine ⟨?_, ?_, ?_⟩
  · intro o t c h
    simp only [boostTipForTransactOpts]
    rw [if_pos (by omega)]
  · intro o t c h h2
    simp only [boostTipForTransactOpts]
    rw [if_neg (by omega), if_pos (by omega)]
  · intro env o a rem e ha hb
    have hne : ¬ a = 0 := by omega
    simp [runAttempts, hne, hb]

theorem negBaseFee_rejected_witness :
    (boostTipForTransactOpts optsA (.ok (3, 1))).1 =
      .error ("new base fee cannot be negative: " ++ toString ((1 : Int) - 3)) ∧
    runAttempts envBad optsA 1 9 =
      (.failure (boostFailMsg 1 "new base fee cannot be negative: -2"),
       [Event.boostCall 1]) :=
  ⟨negBaseFee_rejected.1 optsA 3 1 (by decide),
   negBaseFee_rejected.2.2 envBad optsA 1 8
     "new base fee cannot be negative: -2" (by decide) rfl⟩

/-- Claim C8: a first-attempt submission success followed by an inclusion
wait that returns a receipt makes WaitMinedWithRetry return exactly that
receipt after one callback invocation, no boost and one inclusion wait, as
the full event trace shows. -/
theorem first_attempt_success (env : Env) (opts : TransactOpts) (r : Receipt)
    (hs : env.submit 0 opts = .ok ())
    (hw : env.wait 0 = .mined r) :
    waitMinedWithRetry env opts =
      (.receipt r, [Event.submitCall 0 opts, Event.waitStart 0]) := by
  show runAttempts env opts 0 maxRetries = _
  rw [show maxRetries = 9 + 1 from rfl]
  simp [runAttempts, attemptCore, hs, hw]

theorem first_attempt_success_witness :
    waitMinedWithRetry envH optsA =
      (.receipt rcptA, [Event.submitCall 0 optsA, Event.waitStart 0]) :=
  first_attempt_success envH optsA rcptA rfl rfl

/-- Claim C9: the migration scripts turn a WaitMinedWithRetry failure whose
message contains "nonce too low" into a synthetic successful receipt with
status 1 and block number 0 and proceed, pass a real receipt through, and
halt the batch on every other failure. -/
theorem nonceTooLow_synthetic :
    (∀ r, migrateHandleResult (RunResult.receipt r) = .ok r) ∧
    (∀ e, strContains e "nonce too low" = true →
        migrateHandleResult (RunResult.failure e) =
          .ok { Status := 1, BlockNumber := 0 }) ∧
    (∀ e, strContains e "nonce too low" = false →
        migrateHandleResult (RunResult.failure e) = .error e) := by
  refine ⟨fun r => rfl, ?_, ?_⟩
  · intro e h
    simp [migrateHandleResult, h]
  · intro e h
    simp [migrateHandleResult, h]

theorem nonceTooLow_synthetic_witness :
    migrateHandleResult
        (RunResult.failure "tx submission failed on attempt 0: nonce too low")
      = .ok { Status := 1, BlockNumber := 0 } :=
  nonceTooLow_synthetic.2.1
    "tx submission failed on attempt 0: nonce too low" (by decide)

/-- Claim C10: a failing BoostTipForTransactOpts leaves the fee parameters
record completely unchanged, and on every outcome the call preserves the
sender, nonce, value and gas limit fields, mutating only the two fee
fields. -/
theorem boost_error_no_mutation :
    (∀ (o : TransactOpts) (s : Except String (Int × Int)) (e : String),
        (boostTipForTransactOpts o s).1 = .error e →
        (boostTipForTransactOpts o s).2 = o) ∧
    (∀ (o : TransactOpts) (s : Except String (Int × Int)),
        ((boostTipForTransactOpts o s).2).From = o.From ∧
        ((boostTipForTransactOpts o s).2).Nonce = o.Nonce ∧
        ((boostTipForTransactOpts o s).2).Value = o.Value ∧
        ((boostTipForTransactOpts o s).2).GasLimit = o.GasLimit) := by
  constructor
  · intro o s e h
    rcases s with e' | ⟨t, c⟩
    · rfl
    · simp only [boostTipForTransactOpts] at h ⊢
      split_ifs at h ⊢ <;> first | rfl | simp at h
  · intro o s
    exact boost_fields o s

theorem boost_error_no_mutation_witness :
    (boostTipForTransactOpts optsA (.ok (3, 1))).2 = optsA ∧
    ((boostTipForTransactOpts optsA (.ok (20, 25))).2).Nonce = optsA.Nonce :=
  ⟨boost_error_no_mutation.1 optsA (.ok (3, 1))
      "new base fee cannot be negative: -2" rfl,
   (boost_error_no_mutation.2 optsA (.ok (20, 25))).2.1⟩
